import Mathlib

/-!
Formal model of the container-infra node manager and in-guest agent.

Each definition is a shallow embedding of the correspondingly named item of
the Rust sources (crate paths given in the doc comments).  Machine integers
are modelled as Nat or Int with explicit reductions modulo two to the width
where the Rust arithmetic can wrap.  Stateful code is modelled by explicit
state passing; command execution (subprocess calls) is modelled by returning
the list of commands that would be executed.
-/

namespace ContainerInfra

/-! ## Wire data model (src/vmproto/src/guest.rs and src/vmproto/src/host.rs) -/

/-- Exit codes sent by the guest, from enum GuestExitCode in guest.rs.
The payload of ContainerExited is an i32, modelled as Int. -/
inductive GuestExitCode where
  | GracefulShutdown
  | FailedToPullContainerImage
  | ContainerExited (code : Int)
  deriving DecidableEq, Repr

/-- Guest lifecycle states, from enum InitVmState in guest.rs. -/
inductive InitVmState where
  | Online
  | PullingContainerImage
  | ExecutingContainer
  deriving DecidableEq, Repr

/-- Log record kinds, from enum LogMessageType in guest.rs. -/
inductive LogMessageType where
  | System
  | Stdout
  | Stderr
  deriving DecidableEq, Repr

/-- A log record, from struct LogMessage in guest.rs.  timestamp_ms is a u64,
modelled as Nat. -/
structure LogMessage where
  text : String
  timestamp_ms : Nat
  message_type : LogMessageType
  deriving DecidableEq, Repr

/-- Guest-to-host packets, from enum GuestPacket in guest.rs.  The Rust
VmState variant carries the tuple (InitVmState, u64). -/
inductive GuestPacket where
  | Log (m : LogMessage)
  | VmState (s : InitVmState) (timestamp_ms : Nat)
  | Exited (c : GuestExitCode)
  deriving DecidableEq, Repr

/-- Host-to-guest packets, from enum HostPacket in host.rs. -/
inductive HostPacket where
  | Shutdown
  deriving DecidableEq, Repr

/-! ## Packet byte codec

serialize_guest_packet and friends delegate to the external bitcode crate,
whose implementation is not part of this repository.  The payload format is
modelled from the spec: a tagged binary encoding of one of the enum
variants, one byte of variant tag followed by the fields (u64 fields as
eight little-endian bytes, i32 as four two-complement bytes, strings as a
u64 character count followed by three bytes per unicode scalar value).
Bytes are modelled as Nat. -/

/-- Eight little-endian bytes of a u64 value. -/
def encU64 (n : Nat) : List Nat :=
  [n % 256, n / 256 % 256, n / 65536 % 256, n / 16777216 % 256,
   n / 4294967296 % 256, n / 1099511627776 % 256,
   n / 281474976710656 % 256, n / 72057594037927936 % 256]

/-- Read back a u64 from eight little-endian bytes, returning the unread tail. -/
def decU64 : List Nat → Option (Nat × List Nat)
  | b0 :: b1 :: b2 :: b3 :: b4 :: b5 :: b6 :: b7 :: rest =>
      some (b0 + 256 * (b1 + 256 * (b2 + 256 * (b3 + 256 * (b4 + 256 * (b5 + 256 * (b6 + 256 * b7)))))), rest)
  | _ => none

theorem decU64_encU64 (n : Nat) (h : n < 2 ^ 64) (rest : List Nat) :
    decU64 (encU64 n ++ rest) = some (n, rest) := by
  simp only [encU64, decU64, List.cons_append, List.nil_append, Option.some.injEq, Prod.mk.injEq]
  refine ⟨?_, trivial⟩
  omega

/-- Four two-complement little-endian bytes of an i32 value. -/
def encI32 (c : Int) : List Nat :=
  let v : Nat := (c % 4294967296).toNat
  [v % 256, v / 256 % 256, v / 65536 % 256, v / 16777216 % 256]

/-- Read back an i32 from four little-endian bytes. -/
def decI32 : List Nat → Option (Int × List Nat)
  | b0 :: b1 :: b2 :: b3 :: rest =>
      let v : Nat := b0 + 256 * (b1 + 256 * (b2 + 256 * b3))
      some (if v < 2147483648 then (v : Int) else (v : Int) - 4294967296, rest)
  | _ => none

theorem decI32_encI32 (c : Int) (h1 : -(2 ^ 31) ≤ c) (h2 : c < 2 ^ 31) (rest : List Nat) :
    decI32 (encI32 c ++ rest) = some (c, rest) := by
  simp only [encI32, decI32, List.cons_append, List.nil_append, Option.some.injEq, Prod.mk.injEq]
  refine ⟨?_, trivial⟩
  split <;> omega

/-- Every unicode scalar value fits in three bytes. -/
theorem char_toNat_lt (c : Char) : c.toNat < 2 ^ 24 := by
  have h := c.valid
  rcases h with h | h
  · exact Nat.lt_trans h (by norm_num)
  · exact Nat.lt_trans h.2 (by norm_num)

/-- Three little-endian bytes of a unicode scalar value. -/
def encChar (c : Char) : List Nat :=
  [c.toNat % 256, c.toNat / 256 % 256, c.toNat / 65536 % 256]

/-- Read back one character from three little-endian bytes. -/
def decChar : List Nat → Option (Char × List Nat)
  | b0 :: b1 :: b2 :: rest => some (Char.ofNat (b0 + 256 * (b1 + 256 * b2)), rest)
  | _ => none

theorem decChar_encChar (c : Char) (rest : List Nat) :
    decChar (encChar c ++ rest) = some (c, rest) := by
  simp only [encChar, decChar, List.cons_append, List.nil_append, Option.some.injEq, Prod.mk.injEq]
  have hlt := char_toNat_lt c
  refine ⟨?_, trivial⟩
  have hv : c.toNat % 256 + 256 * (c.toNat / 256 % 256 + 256 * (c.toNat / 65536 % 256)) = c.toNat := by
    omega
  rw [hv, Char.ofNat_toNat]

/-- Read back a run of count characters. -/
def decChars : Nat → List Nat → Option (List Char × List Nat)
  | 0, rest => some ([], rest)
  | k + 1, bytes =>
      match decChar bytes with
      | none => none
      | some (c, r1) =>
          match decChars k r1 with
          | none => none
          | some (cs, r2) => some (c :: cs, r2)

theorem decChars_encChars (l : List Char) (rest : List Nat) :
    decChars l.length ((l.map encChar).flatten ++ rest) = some (l, rest) := by
  induction l generalizing rest with
  | nil => simp [decChars]
  | cons c cs ih =>
      simp only [List.map_cons, List.flatten_cons, List.length_cons, decChars, List.append_assoc,
        decChar_encChar c ((cs.map encChar).flatten ++ rest), ih rest]

/-- A string as a u64 character count followed by the characters. -/
def encString (s : String) : List Nat :=
  encU64 s.data.length ++ (s.data.map encChar).flatten

/-- Read back a string. -/
def decString (bytes : List Nat) : Option (String × List Nat) :=
  match decU64 bytes with
  | none => none
  | some (n, r1) =>
      match decChars n r1 with
      | none => none
      | some (cs, r2) => some (String.mk cs, r2)

theorem decString_encString (s : String) (h : s.data.length < 2 ^ 64) (rest : List Nat) :
    decString (encString s ++ rest) = some (s, rest) := by
  simp only [encString, decString, List.append_assoc,
    decU64_encU64 s.data.length h, decChars_encChars]

/-- Variant tag of an InitVmState. -/
def encInitVmState : InitVmState → Nat
  | .Online => 0
  | .PullingContainerImage => 1
  | .ExecutingContainer => 2

/-- Read back an InitVmState from its tag. -/
def decInitVmState : Nat → Option InitVmState
  | 0 => some .Online
  | 1 => some .PullingContainerImage
  | 2 => some .ExecutingContainer
  | _ => none

theorem decInitVmState_encInitVmState (s : InitVmState) :
    decInitVmState (encInitVmState s) = some s := by
  cases s <;> rfl

/-- Variant tag of a LogMessageType. -/
def encLogMessageType : LogMessageType → Nat
  | .System => 0
  | .Stdout => 1
  | .Stderr => 2

/-- Read back a LogMessageType from its tag. -/
def decLogMessageType : Nat → Option LogMessageType
  | 0 => some .System
  | 1 => some .Stdout
  | 2 => some .Stderr
  | _ => none

theorem decLogMessageType_encLogMessageType (t : LogMessageType) :
    decLogMessageType (encLogMessageType t) = some t := by
  cases t <;> rfl

/-- Tagged encoding of a GuestExitCode. -/
def encGuestExitCode : GuestExitCode → List Nat
  | .GracefulShutdown => [0]
  | .FailedToPullContainerImage => [1]
  | .ContainerExited code => 2 :: encI32 code

/-- Read back a GuestExitCode. -/
def decGuestExitCode : List Nat → Option (GuestExitCode × List Nat)
  | 0 :: rest => some (.GracefulShutdown, rest)
  | 1 :: rest => some (.FailedToPullContainerImage, rest)
  | 2 :: rest => (decI32 rest).map (fun p => (.ContainerExited p.1, p.2))
  | _ => none

theorem decGuestExitCode_encGuestExitCode (c : GuestExitCode)
    (h : ∀ code, c = .ContainerExited code → -(2 ^ 31) ≤ code ∧ code < 2 ^ 31)
    (rest : List Nat) :
    decGuestExitCode (encGuestExitCode c ++ rest) = some (c, rest) := by
  cases c with
  | GracefulShutdown => rfl
  | FailedToPullContainerImage => rfl
  | ContainerExited code =>
      obtain ⟨h1, h2⟩ := h code rfl
      simp only [encGuestExitCode, decGuestExitCode, List.cons_append]
      rw [decI32_encI32 code h1 h2]
      rfl

/-- Bounds that the Rust integer types guarantee for a packet's numeric fields
(u64 timestamps and lengths, i32 exit code). -/
def GuestPacket.wellFormed : GuestPacket → Bool
  | .Log m => decide (m.timestamp_ms < 2 ^ 64) && decide (m.text.data.length < 2 ^ 64)
  | .VmState _ ts => decide (ts < 2 ^ 64)
  | .Exited (.ContainerExited code) => decide (-(2 ^ 31) ≤ code) && decide (code < 2 ^ 31)
  | .Exited _ => true

/-- Modelled from the spec: serialize_guest_packet (src/vmproto/src/guest.rs)
delegates to the external bitcode crate; its payload is modelled as the tagged
binary encoding of the variant described in the spec. -/
def serialize_guest_packet : GuestPacket → List Nat
  | .Log m => 0 :: (encString m.text ++ encU64 m.timestamp_ms ++ [encLogMessageType m.message_type])
  | .VmState s ts => 1 :: (encInitVmState s :: encU64 ts)
  | .Exited c => 2 :: encGuestExitCode c

/-- Modelled from the spec: deserialize_guest_packet, inverse direction of the
same tagged binary encoding; fails unless the buffer is exactly one packet. -/
def deserialize_guest_packet (data : List Nat) : Option GuestPacket :=
  match data with
  | 0 :: rest =>
      (match decString rest with
       | some (text, r1) =>
          (match decU64 r1 with
           | some (ts, [tt]) =>
              (match decLogMessageType tt with
               | some t => some (GuestPacket.Log ⟨text, ts, t⟩)
               | none => none)
           | _ => none)
       | none => none)
  | 1 :: st :: rest =>
      (match decInitVmState st with
       | some s =>
          (match decU64 rest with
           | some (ts, []) => some (GuestPacket.VmState s ts)
           | _ => none)
       | none => none)
  | 2 :: rest =>
      (match decGuestExitCode rest with
       | some (c, []) => some (GuestPacket.Exited c)
       | _ => none)
  | _ => none

/-- Modelled from the spec: serialize_host_packet (src/vmproto/src/host.rs),
the tagged binary encoding of the single Shutdown variant. -/
def serialize_host_packet : HostPacket → List Nat
  | .Shutdown => [0]

/-- Modelled from the spec: deserialize_host_packet. -/
def deserialize_host_packet : List Nat → Option HostPacket
  | [0] => some .Shutdown
  | _ => none

/-- C9: for every guest packet value (Log, VmState, Exited with any exit code
representable in the Rust field types) and for the host Shutdown packet,
deserializing the bytes produced by the corresponding serialize function
yields some of the original value. -/
theorem c9_packet_codec_roundtrip (p : GuestPacket) (hp : p.wellFormed = true) :
    deserialize_guest_packet (serialize_guest_packet p) = some p ∧
      ∀ q : HostPacket, deserialize_host_packet (serialize_host_packet q) = some q := by
  refine ⟨?_, fun q => by cases q; rfl⟩
  cases p with
  | Log m =>
      simp only [GuestPacket.wellFormed, Bool.and_eq_true, decide_eq_true_eq] at hp
      simp only [serialize_guest_packet, deserialize_guest_packet, List.append_assoc,
        decString_encString m.text hp.2, decU64_encU64 m.timestamp_ms hp.1,
        List.cons_append, List.nil_append, decLogMessageType_encLogMessageType]
  | VmState s ts =>
      simp only [GuestPacket.wellFormed, decide_eq_true_eq] at hp
      simp only [serialize_guest_packet, deserialize_guest_packet,
        decInitVmState_encInitVmState, List.append_nil]
      have h := decU64_encU64 ts hp []
      rw [List.append_nil] at h
      rw [h]
  | Exited c =>
      have hc : ∀ code, c = .ContainerExited code → -(2 ^ 31) ≤ code ∧ code < 2 ^ 31 := by
        intro code heq
        subst heq
        simp only [GuestPacket.wellFormed, Bool.and_eq_true, decide_eq_true_eq] at hp
        exact hp
      simp only [serialize_guest_packet, deserialize_guest_packet]
      have h := decGuestExitCode_encGuestExitCode c hc []
      rw [List.append_nil] at h
      rw [h]

/-- Witness for C9 at a concrete Log packet. -/
theorem c9_packet_codec_roundtrip_witness :
    (GuestPacket.Log ⟨"ok", 42, LogMessageType.Stdout⟩).wellFormed = true ∧
      deserialize_guest_packet
          (serialize_guest_packet (GuestPacket.Log ⟨"ok", 42, LogMessageType.Stdout⟩)) =
        some (GuestPacket.Log ⟨"ok", 42, LogMessageType.Stdout⟩) :=
  ⟨by decide, (c9_packet_codec_roundtrip (GuestPacket.Log ⟨"ok", 42, LogMessageType.Stdout⟩)
    (by decide)).1⟩

/-! ## Machine communicator (src/nodemanager/src/machine/vsock.rs) -/

/-- Ring capacity, const MAX_LINES_IN_BUFFER in vsock.rs. -/
def MAX_LINES_IN_BUFFER : Nat := 256

/-- Host-side view of how a machine ended, enum MachineExit in vsock.rs. -/
inductive MachineExit where
  | Unknown
  | ContainerExited (code : Int)
  | GracefulShutdown
  | FailedToPullContainerImage
  deriving DecidableEq, Repr

/-- Ring records, enum MachineLog in vsock.rs. -/
inductive MachineLog where
  | VmLog (m : LogMessage)
  | State (s : InitVmState) (timestamp_ms : Nat)
  deriving DecidableEq, Repr

/-- Translation of guest exit codes, impl From of GuestExitCode for
MachineExit in vsock.rs. -/
def MachineExit.fromGuestExitCode : GuestExitCode → MachineExit
  | .GracefulShutdown => .GracefulShutdown
  | .FailedToPullContainerImage => .FailedToPullContainerImage
  | .ContainerExited code => .ContainerExited code

/-- In-memory state of struct MachineCommunicator in vsock.rs: the circular
log buffer (head of the list = most recently pushed record, capacity
MAX_LINES_IN_BUFFER) and the cached most recent state record.  The stream
write half and the subscriber channel handles are I/O resources and carry no
in-memory state relevant to the modelled operations. -/
structure MachineCommunicator where
  log_buffer : List MachineLog
  state : Option (InitVmState × Nat)
  deriving DecidableEq, Repr

/-- CircularBuffer::push_front of the circular-buffer crate: insert at the
front, evicting the back element when the buffer is at capacity. -/
def pushFrontRing (buf : List MachineLog) (d : MachineLog) : List MachineLog :=
  (d :: buf).take MAX_LINES_IN_BUFFER

/-- MachineCommunicator::push_log restricted to its in-memory effect: the
subscriber fan-out only sends on channels (dropping slow subscribers) and
does not change the ring or the cached state. -/
def MachineCommunicator.push_log (c : MachineCommunicator) (d : MachineLog) :
    MachineCommunicator :=
  { c with log_buffer := pushFrontRing c.log_buffer d }

/-- MachineCommunicator::clone_buffer_with_state, translated clause by
clause: iter() visits the ring front to back (newest first) and rev() makes
the snapshot oldest first; the flag is computed by find over the ring,
matching state records with the same state and the same timestamp; the
cached state is appended through the Option chain exactly when the flag is
false. -/
def MachineCommunicator.clone_buffer_with_state (c : MachineCommunicator) : List MachineLog :=
  let should_chain_last_state : Bool :=
    (c.state.map (fun p =>
      (c.log_buffer.find? (fun log =>
        match log with
        | .State s ts => decide (s = p.1) && decide (ts = p.2)
        | _ => false)).isSome)).getD false
  c.log_buffer.reverse ++
    ((c.state.bind (fun p =>
      if should_chain_last_state then none
      else some [MachineLog.State p.1 p.2])).getD [])

/-- The find used by clone_buffer_with_state succeeds exactly when the ring
contains the state record itself. -/
theorem find_state_isSome (buf : List MachineLog) (s : InitVmState) (ts : Nat) :
    (buf.find? (fun log =>
      match log with
      | .State s2 ts2 => decide (s2 = s) && decide (ts2 = ts)
      | _ => false)).isSome = decide (MachineLog.State s ts ∈ buf) := by
  by_cases h : MachineLog.State s ts ∈ buf
  · rw [decide_eq_true h, List.find?_isSome]
    exact ⟨MachineLog.State s ts, h, by simp⟩
  · rw [decide_eq_false h, ← Bool.not_eq_true, List.find?_isSome]
    rintro ⟨x, hx, hpx⟩
    cases x with
    | VmLog m => simp at hpx
    | State s2 ts2 =>
        simp only [Bool.and_eq_true, decide_eq_true_eq] at hpx
        obtain ⟨rfl, rfl⟩ := hpx
        exact h hx

/-- C7: for every communicator state, clone_buffer_with_state returns the
ring records oldest first, followed by the cached last-state record exactly
when a last-state is cached and no record with the same state and timestamp
is already in the ring; otherwise nothing is appended. -/
theorem c7_clone_buffer_with_state_spec (c : MachineCommunicator) :
    c.clone_buffer_with_state =
      c.log_buffer.reverse ++
        (match c.state with
         | none => []
         | some p =>
            if MachineLog.State p.1 p.2 ∈ c.log_buffer then []
            else [MachineLog.State p.1 p.2]) := by
  unfold MachineCommunicator.clone_buffer_with_state
  cases hst : c.state with
  | none => simp
  | some p =>
      simp only [hst, Option.map_some, Option.getD_some, Option.bind_some,
        find_state_isSome]
      by_cases hmem : MachineLog.State p.1 p.2 ∈ c.log_buffer
      · simp [hmem]
      · simp [hmem]

/-- One iteration of the match inside packet_handler (vsock.rs lines
180-197), acting on the communicator state paired with the loop-local exit
value. -/
def handlePacket (st : MachineCommunicator × MachineExit) (p : GuestPacket) :
    MachineCommunicator × MachineExit :=
  match p with
  | .Log l => (st.1.push_log (.VmLog l), st.2)
  | .Exited code => ({ st.1 with state := none }, MachineExit.fromGuestExitCode code)
  | .VmState s ts => (({ st.1 with state := some (s, ts) }).push_log (.State s ts), st.2)

/-- packet_handler (vsock.rs lines 169-209): the reader loop handles every
packet the stream successfully yields, in order, and ends only when a read
fails; packets is that list of decoded packets.  The second component of the
result is the MachineExit value sent on the one-shot stop channel at loop
end. -/
def packet_handler (packets : List GuestPacket) (st : MachineCommunicator × MachineExit) :
    MachineCommunicator × MachineExit :=
  packets.foldl handlePacket st

/-- Initial reader state: spawn builds an empty ring with no cached state,
and the loop-local exit value starts as Unknown. -/
def spawnState : MachineCommunicator × MachineExit := (⟨[], none⟩, MachineExit.Unknown)

/-- The exit codes carried by the Exited packets of a stream, in order. -/
def exitedCodes (packets : List GuestPacket) : List GuestExitCode :=
  packets.filterMap (fun p =>
    match p with
    | .Exited c => some c
    | _ => none)

theorem foldl_overwrite {α β : Type} (f : α → β) (l : List α) (b : β) :
    l.foldl (fun _ c => f c) b = l.getLast?.elim b f := by
  induction l generalizing b with
  | nil => rfl
  | cons x xs ih =>
      rw [List.foldl_cons, ih (f x)]
      cases xs with
      | nil => rfl
      | cons y ys =>
          obtain ⟨z, hz⟩ := Option.isSome_iff_exists.mp
            (List.getLast?_isSome.mpr (List.cons_ne_nil y ys))
          simp [List.getLast?_cons_cons, hz]

theorem packet_handler_exit (packets : List GuestPacket)
    (st : MachineCommunicator × MachineExit) :
    (packet_handler packets st).2 =
      (exitedCodes packets).foldl (fun _ c => MachineExit.fromGuestExitCode c) st.2 := by
  induction packets generalizing st with
  | nil => rfl
  | cons p ps ih =>
      cases p with
      | Log m => simpa [packet_handler, exitedCodes, handlePacket] using ih _
      | VmState s ts => simpa [packet_handler, exitedCodes, handlePacket] using ih _
      | Exited c => simpa [packet_handler, exitedCodes, handlePacket] using ih _

/-- C1 (amended): the reader loop does not stop at an Exited packet; it
handles packets until the stream read fails.  Each Exited packet clears the
cached last-state and overwrites the pending exit with the translation of
its code, so the value sent on the one-shot channel at loop end is the
translation of the most recent Exited code received, and Unknown exactly
when no Exited packet was received. -/
theorem c1_exit_translation_amended (packets : List GuestPacket) :
    ((packet_handler packets spawnState).2 =
      (exitedCodes packets).getLast?.elim MachineExit.Unknown MachineExit.fromGuestExitCode) ∧
      (∀ (st : MachineCommunicator × MachineExit) (code : GuestExitCode),
        (handlePacket st (.Exited code)).1.state = none ∧
          (handlePacket st (.Exited code)).2 = MachineExit.fromGuestExitCode code) := by
  refine ⟨?_, fun st code => ⟨rfl, rfl⟩⟩
  rw [packet_handler_exit, foldl_overwrite]
  rfl

/-- C1 (counterexample): the claim that the loop processes no further
packets once an Exited packet arrives is false; a Log packet arriving after
Exited(GracefulShutdown) is still pushed into the ring, so the final state
differs from the one where the stream ended at the Exited packet. -/
theorem c1_loop_continues_counterexample :
    packet_handler
        [GuestPacket.Exited GuestExitCode.GracefulShutdown,
         GuestPacket.Log ⟨"after exit", 7, LogMessageType.Stdout⟩] spawnState ≠
      packet_handler [GuestPacket.Exited GuestExitCode.GracefulShutdown] spawnState := by
  decide

/-! ## Decimal rendering of naturals

The TAP device names are built with format as tap followed by the decimal
rendering of the slot index, which Lean models as Nat.repr.  The lemmas
below show Nat.repr is injective, which pairwise-distinct TAP names reduce
to. -/

/-- Decimal digit characters of n, most significant first; the reference
shape of Nat.toDigits at base ten. -/
def decimalDigits (n : Nat) : List Char :=
  if _h : n < 10 then [Nat.digitChar n]
  else decimalDigits (n / 10) ++ [Nat.digitChar (n % 10)]
decreasing_by
  exact Nat.div_lt_self (by omega) (by omega)

theorem decimalDigits_ne_nil (n : Nat) : decimalDigits n ≠ [] := by
  rw [decimalDigits]
  split
  · simp
  · simp

theorem toDigitsCore_eq_decimalDigits (fuel : Nat) :
    ∀ (n : Nat) (acc : List Char), n < fuel →
      Nat.toDigitsCore 10 fuel n acc = decimalDigits n ++ acc := by
  induction fuel with
  | zero => intro n acc h; omega
  | succ f ih =>
      intro n acc h
      simp only [Nat.toDigitsCore]
      by_cases h10 : n / 10 = 0
      · have hn : n < 10 := by omega
        rw [if_pos h10, decimalDigits, dif_pos hn, Nat.mod_eq_of_lt hn]
        rfl
      · have hge : 10 ≤ n := by omega
        have hlt : n / 10 < f := by
          have hd := Nat.div_lt_self (show 0 < n by omega) (show 1 < 10 by omega)
          omega
        rw [if_neg h10, ih (n / 10) (Nat.digitChar (n % 10) :: acc) hlt]
        conv_rhs => rw [decimalDigits]
        rw [dif_neg (show ¬n < 10 by omega)]
        simp

theorem toDigits_eq_decimalDigits (n : Nat) : Nat.toDigits 10 n = decimalDigits n := by
  have h := toDigitsCore_eq_decimalDigits (n + 1) n [] (Nat.lt_succ_self n)
  simpa [Nat.toDigits] using h

theorem digitChar_toNat_of_lt (a : Nat) (ha : a < 10) : (Nat.digitChar a).toNat = 48 + a := by
  interval_cases a <;> rfl

theorem digitChar_inj (a b : Nat) (ha : a < 10) (hb : b < 10)
    (h : Nat.digitChar a = Nat.digitChar b) : a = b := by
  have := congrArg Char.toNat h
  rw [digitChar_toNat_of_lt a ha, digitChar_toNat_of_lt b hb] at this
  omega

theorem decimalDigits_inj (a : Nat) :
    ∀ b, decimalDigits a = decimalDigits b → a = b := by
  induction a using Nat.strong_induction_on with
  | _ a ih =>
      intro b h
      by_cases ha : a < 10 <;> by_cases hb : b < 10
      · rw [decimalDigits, dif_pos ha, decimalDigits, dif_pos hb] at h
        simp only [List.cons.injEq, and_true] at h
        exact digitChar_inj a b ha hb h
      · exfalso
        rw [decimalDigits, dif_pos ha, decimalDigits, dif_neg hb] at h
        have hlen := congrArg List.length h
        have hpos := List.length_pos.mpr (decimalDigits_ne_nil (b / 10))
        simp only [List.length_cons, List.length_nil, List.length_append] at hlen
        omega
      · exfalso
        rw [decimalDigits, dif_neg ha] at h
        nth_rewrite 2 [decimalDigits] at h
        rw [dif_pos hb] at h
        have hlen := congrArg List.length h
        have hpos := List.length_pos.mpr (decimalDigits_ne_nil (a / 10))
        simp only [List.length_cons, List.length_nil, List.length_append] at hlen
        omega
      · rw [decimalDigits, dif_neg ha] at h
        nth_rewrite 2 [decimalDigits] at h
        rw [dif_neg hb] at h
        have hrev := congrArg List.reverse h
        simp only [List.reverse_append, List.reverse_cons, List.reverse_nil,
          List.nil_append, List.cons_append, List.cons.injEq] at hrev
        have hmod : a % 10 = b % 10 :=
          digitChar_inj _ _ (Nat.mod_lt a (by omega)) (Nat.mod_lt b (by omega)) hrev.1
        have hdiv : a / 10 = b / 10 :=
          ih (a / 10) (Nat.div_lt_self (by omega) (by omega)) (b / 10)
            (List.reverse_injective hrev.2)
        omega

theorem string_data_ext (s t : String) (h : s.data = t.data) : s = t := by
  cases s
  cases t
  exact congrArg String.mk h

theorem nat_repr_inj (a b : Nat) (h : Nat.repr a = Nat.repr b) : a = b := by
  apply decimalDigits_inj
  rw [← toDigits_eq_decimalDigits, ← toDigits_eq_decimalDigits]
  have hd := congrArg String.data h
  simpa [Nat.repr, List.asString] using hd

theorem append_repr_inj (p : String) (a b : Nat) (h : p ++ Nat.repr a = p ++ Nat.repr b) :
    a = b := by
  apply nat_repr_inj
  have hd := congrArg String.data h
  simp only [String.data_append] at hd
  exact string_data_ext _ _ (List.append_cancel_left hd)

/-! ## Networking (src/nodemanager/src/networking.rs)

Subprocess execution through the cmd helper is modelled by returning the
invocations that the success path would execute, each as a binary name
paired with its argument vector. -/

/-- One subprocess invocation of the cmd helper: binary name and arguments. -/
abbrev Invocation := String × List String

/-- An IPv4 address as four octets (std::net::Ipv4Addr). -/
structure Ipv4Addr where
  o1 : Nat
  o2 : Nat
  o3 : Nat
  o4 : Nat
  deriving DecidableEq, Repr

/-- Dotted-decimal rendering, the Display of Ipv4Addr used by to_string. -/
def Ipv4Addr.render (a : Ipv4Addr) : String :=
  Nat.repr a.o1 ++ "." ++ Nat.repr a.o2 ++ "." ++ Nat.repr a.o3 ++ "." ++ Nat.repr a.o4

/-- struct NetworkStackSlot in networking.rs. -/
structure NetworkStackSlot where
  ipv4_addr : Ipv4Addr
  gateway : Ipv4Addr
  tap_dev_name : String
  deriving DecidableEq, Repr

/-- struct NetworkStack in networking.rs: the owned addresses, the TAP
device name (the nic field of type TunTap holds only its name), and
delete_chain_args, the recorded delete-twin argument vectors.  Vec::push
appends at the end, so the list is in installation order, earliest first. -/
structure NetworkStack where
  ipv4_addr : Ipv4Addr
  gateway : Ipv4Addr
  nic : String
  delete_chain_args : List (List String)
  deriving DecidableEq, Repr

/-- NetworkStack::new on its success path: TunTap::new, add_address and up
are subprocess calls that do not touch the undo list, which starts empty. -/
def NetworkStack.new (slot : NetworkStackSlot) : NetworkStack :=
  { ipv4_addr := slot.ipv4_addr, gateway := slot.gateway,
    nic := slot.tap_dev_name, delete_chain_args := [] }

/-- NetworkStack::add_ip_rule on its success path: run iptables-nft with
args and push delete_args onto the undo list.  Returns the new stack and
the executed invocations. -/
def NetworkStack.add_ip_rule (st : NetworkStack) (args : List String)
    (delete_args : List String) : NetworkStack × List Invocation :=
  ({ st with delete_chain_args := st.delete_chain_args ++ [delete_args] },
   [("iptables-nft", args)])

/-- NetworkStack::add_ip_rule_replace_first_arg: the recorded delete twin is
the install argument vector with its first element replaced. -/
def NetworkStack.add_ip_rule_replace_first_arg (st : NetworkStack) (args : List String)
    (replaced_args : String) : NetworkStack × List Invocation :=
  st.add_ip_rule args (replaced_args :: args.tail)

/-- NetworkStack::setup_public_nat: three appended rules, each recorded with
its delete twin. -/
def NetworkStack.setup_public_nat (st : NetworkStack) (outbound_if_name : String) :
    NetworkStack × List Invocation :=
  let addr := st.ipv4_addr.render
  let nic_name := st.nic
  let p1 := st.add_ip_rule_replace_first_arg
    ["-A", "POSTROUTING", "-t", "nat", "-o", outbound_if_name, "-s", addr,
     "-j", "MASQUERADE"] "-D"
  let p2 := p1.1.add_ip_rule_replace_first_arg
    ["-A", "FORWARD", "-m", "conntrack", "--ctstate", "RELATED,ESTABLISHED",
     "-j", "ACCEPT"] "-D"
  let p3 := p2.1.add_ip_rule_replace_first_arg
    ["-A", "FORWARD", "-i", nic_name, "-o", outbound_if_name, "-j", "ACCEPT"] "-D"
  (p3.1, p1.2 ++ p2.2 ++ p3.2)

/-- NetworkStack::setup_forwarding: DNAT, masquerade and the two
state-qualified forward accepts, each recorded with its delete twin.  Ports
are u16, modelled as Nat. -/
def NetworkStack.setup_forwarding (st : NetworkStack) (inbound_if_name : String)
    (inbound_port : Nat) (guest_port : Nat) : NetworkStack × List Invocation :=
  let nic_name := st.nic
  let p1 := st.add_ip_rule_replace_first_arg
    ["-A", "PREROUTING", "-t", "nat", "-i", inbound_if_name, "-p", "tcp",
     "--dport", Nat.repr inbound_port, "-j", "DNAT", "--to-destination",
     st.ipv4_addr.render ++ ":" ++ Nat.repr guest_port] "-D"
  let p2 := p1.1.add_ip_rule_replace_first_arg
    ["-A", "POSTROUTING", "-t", "nat", "-o", nic_name, "-p", "tcp",
     "--dport", Nat.repr guest_port, "-j", "MASQUERADE"] "-D"
  let p3 := p2.1.add_ip_rule_replace_first_arg
    ["-I", "FORWARD", "-i", nic_name, "-o", inbound_if_name, "-p", "tcp",
     "--sport", Nat.repr guest_port, "-m", "state", "--state",
     "ESTABLISHED,RELATED", "-j", "ACCEPT"] "-D"
  let p4 := p3.1.add_ip_rule_replace_first_arg
    ["-I", "FORWARD", "-i", inbound_if_name, "-o", nic_name, "-p", "tcp",
     "--dport", Nat.repr guest_port, "-m", "state", "--state",
     "NEW,ESTABLISHED,RELATED", "-j", "ACCEPT"] "-D"
  (p4.1, p1.2 ++ p2.2 ++ p3.2 ++ p4.2)

/-- Drop for NetworkStack followed by the automatic field drops: the drop
body iterates delete_chain_args front to back, running iptables-nft on each
recorded vector; the Rust drop glue then drops the nic field, whose TunTap
Drop deletes the TAP link. -/
def NetworkStack.dropInvocations (st : NetworkStack) : List Invocation :=
  st.delete_chain_args.map (fun rule => (("iptables-nft" : String), rule)) ++
    [(("ip" : String), ["link", "del", st.nic])]

/-- Modelled from the spec: the replay order the spec asserts for the undo
list, namely reverse order of installation, followed by TAP destruction. -/
def NetworkStack.dropInvocationsSpec (st : NetworkStack) : List Invocation :=
  st.delete_chain_args.reverse.map (fun rule => (("iptables-nft" : String), rule)) ++
    [(("ip" : String), ["link", "del", st.nic])]

/-- The rule-installing operations a stack undergoes after creation:
setup_public_nat at provision time and setup_forwarding for each
PublishServicePort call. -/
inductive StackOp where
  | publicNat (outbound_if_name : String)
  | forwarding (inbound_if_name : String) (inbound_port : Nat) (guest_port : Nat)

/-- Apply one operation. -/
def applyOp (st : NetworkStack) : StackOp → NetworkStack × List Invocation
  | .publicNat o => st.setup_public_nat o
  | .forwarding i hp gp => st.setup_forwarding i hp gp

/-- Run a sequence of operations, collecting every executed invocation. -/
def runOps (st : NetworkStack) : List StackOp → NetworkStack × List Invocation
  | [] => (st, [])
  | op :: ops =>
      let p := applyOp st op
      let q := runOps p.1 ops
      (q.1, p.2 ++ q.2)

theorem applyOp_nic (st : NetworkStack) (op : StackOp) : (applyOp st op).1.nic = st.nic := by
  cases op <;>
    simp [applyOp, NetworkStack.setup_public_nat, NetworkStack.setup_forwarding,
      NetworkStack.add_ip_rule_replace_first_arg, NetworkStack.add_ip_rule]

theorem applyOp_delete_chain (st : NetworkStack) (op : StackOp) :
    (applyOp st op).1.delete_chain_args =
      st.delete_chain_args ++ ((applyOp st op).2).map (fun c => "-D" :: c.2.tail) := by
  cases op <;>
    simp [applyOp, NetworkStack.setup_public_nat, NetworkStack.setup_forwarding,
      NetworkStack.add_ip_rule_replace_first_arg, NetworkStack.add_ip_rule]

theorem runOps_nic (ops : List StackOp) (st : NetworkStack) :
    (runOps st ops).1.nic = st.nic := by
  induction ops generalizing st with
  | nil => rfl
  | cons op ops ih => rw [runOps, ih (applyOp st op).1, applyOp_nic]

theorem runOps_delete_chain (ops : List StackOp) (st : NetworkStack) :
    (runOps st ops).1.delete_chain_args =
      st.delete_chain_args ++ ((runOps st ops).2).map (fun c => "-D" :: c.2.tail) := by
  induction ops generalizing st with
  | nil => simp [runOps]
  | cons op ops ih =>
      rw [runOps]
      rw [ih (applyOp st op).1, applyOp_delete_chain]
      simp [List.append_assoc]

/-- C3 (amended): for every slot and every sequence of successfully
installed rule operations, dropping the resulting stack executes exactly the
recorded delete twin (the install arguments with the first element replaced
by -D) of every installed rule, one iptables-nft invocation per rule, in
installation order, earliest-installed first, and then destroys the TAP
device. -/
theorem c3_drop_replays_undo_list_amended (slot : NetworkStackSlot) (ops : List StackOp) :
    ((runOps (NetworkStack.new slot) ops).1).dropInvocations =
      ((runOps (NetworkStack.new slot) ops).2).map
          (fun c => (("iptables-nft" : String), "-D" :: c.2.tail)) ++
        [(("ip" : String), ["link", "del", slot.tap_dev_name])] := by
  rw [NetworkStack.dropInvocations, runOps_delete_chain, runOps_nic]
  simp [NetworkStack.new, List.map_map, Function.comp]

/-- C3 (counterexample): the undo list is not replayed in reverse order of
installation.  After setup_public_nat on a freshly created stack the drop
path deletes the masquerade rule first (the first one installed), whereas
the claimed reverse replay would delete the forward-accept rule first. -/
theorem c3_drop_order_counterexample :
    ((runOps (NetworkStack.new ⟨⟨172, 16, 0, 2⟩, ⟨172, 16, 0, 1⟩, "tap0"⟩)
        [StackOp.publicNat "eth0"]).1).dropInvocations ≠
      ((runOps (NetworkStack.new ⟨⟨172, 16, 0, 2⟩, ⟨172, 16, 0, 1⟩, "tap0"⟩)
        [StackOp.publicNat "eth0"]).1).dropInvocationsSpec := by
  decide

/-- struct NetworkManager in networking.rs: the recycled-slot stack
(Vec::push and Vec::pop act on the vector's end; modelled with the head of
the list as the top of the stack) and the u16 counter of never-issued
slots. -/
structure NetworkManager where
  recovered_slots : List NetworkStackSlot
  next_id : Nat
  deriving DecidableEq, Repr

/-- NetworkManager::new. -/
def NetworkManager.new : NetworkManager :=
  { recovered_slots := [], next_id := 0 }

/-- NetworkManager::next_slot.  The Rust arithmetic is u16, so id * 4 + 1
and the counter increment reduce modulo 65536 (release-profile wrapping
semantics); the two u8 casts and the + 1 on the low octet reduce modulo
256. -/
def NetworkManager.next_slot (m : NetworkManager) : NetworkStackSlot × NetworkManager :=
  match m.recovered_slots with
  | slot :: rest => (slot, { m with recovered_slots := rest })
  | [] =>
      let id := m.next_id
      let tap_dev_name := "tap" ++ Nat.repr id
      let ip_id := (id * 4 + 1) % 65536
      let first_half := ip_id / 256 % 256
      let second_half := ip_id % 256
      ({ ipv4_addr := ⟨172, 16, first_half, (second_half + 1) % 256⟩,
         gateway := ⟨172, 16, first_half, second_half⟩,
         tap_dev_name := tap_dev_name },
       { recovered_slots := [], next_id := (id + 1) % 65536 })

/-- NetworkManager::reclaim composed with NetworkStack::reclaim: push the
slot carried by the stack onto the recycled stack. -/
def NetworkManager.reclaim (m : NetworkManager) (stack : NetworkStack) : NetworkManager :=
  { m with recovered_slots :=
      { ipv4_addr := stack.ipv4_addr, gateway := stack.gateway,
        tap_dev_name := stack.nic } :: m.recovered_slots }

/-- The slots issued by n consecutive next_slot calls, in issue order, with
the final manager state. -/
def allocateSeq : Nat → NetworkManager → List NetworkStackSlot × NetworkManager
  | 0, m => ([], m)
  | n + 1, m =>
      let p := m.next_slot
      let q := allocateSeq n p.2
      (p.1 :: q.1, q.2)

/-- The slot next_slot synthesizes when the recycled stack is empty and the
counter holds k. -/
def freshSlot (k : Nat) : NetworkStackSlot :=
  (NetworkManager.next_slot { recovered_slots := [], next_id := k }).1

theorem allocateSeq_fresh (n : Nat) :
    ∀ k, k + n ≤ 65536 →
      (allocateSeq n { recovered_slots := [], next_id := k }).1 =
        (List.range n).map (fun i => freshSlot (k + i)) := by
  induction n with
  | zero => intro k hk; simp [allocateSeq]
  | succ n ih =>
      intro k hk
      by_cases hlt : k + 1 < 65536
      · have hstep :
            (NetworkManager.next_slot { recovered_slots := [], next_id := k }).2 =
              { recovered_slots := [], next_id := k + 1 } := by
          simp [NetworkManager.next_slot, Nat.mod_eq_of_lt hlt]
        have hhead :
            (NetworkManager.next_slot { recovered_slots := [], next_id := k }).1 =
              freshSlot k := rfl
        simp only [allocateSeq]
        rw [hstep, ih (k + 1) (by omega), hhead, List.range_succ_eq_map, List.map_cons,
          List.map_map, Nat.add_zero]
        refine congrArg (List.cons (freshSlot k)) ?_
        apply List.map_congr_left
        intro a ha
        simp only [Function.comp_apply]
        exact congrArg freshSlot (by omega)
      · have hn : n = 0 := by omega
        subst hn
        simp [allocateSeq, freshSlot, List.range_succ]

/-- Unwrapped form of the synthesized slot fields below the wrap threshold. -/
theorem freshSlot_fields (k : Nat) (hk : k < 16384) :
    freshSlot k = { ipv4_addr := ⟨172, 16, (k * 4 + 1) / 256, (k * 4 + 1) % 256 + 1⟩,
                    gateway := ⟨172, 16, (k * 4 + 1) / 256, (k * 4 + 1) % 256⟩,
                    tap_dev_name := "tap" ++ Nat.repr k } := by
  have h1 : (k * 4 + 1) % 65536 = k * 4 + 1 := Nat.mod_eq_of_lt (by omega)
  have h2 : (k * 4 + 1) / 256 % 256 = (k * 4 + 1) / 256 := Nat.mod_eq_of_lt (by omega)
  have h3 : ((k * 4 + 1) % 256 + 1) % 256 = (k * 4 + 1) % 256 + 1 :=
    Nat.mod_eq_of_lt (by omega)
  simp [freshSlot, NetworkManager.next_slot, h1, h2, h3]

theorem freshSlot_ipv4_inj (i j : Nat) (hi : i < 16384) (hj : j < 16384)
    (h : (freshSlot i).ipv4_addr = (freshSlot j).ipv4_addr) : i = j := by
  rw [freshSlot_fields i hi, freshSlot_fields j hj] at h
  simp only [Ipv4Addr.mk.injEq, true_and] at h
  omega

theorem freshSlot_tap_inj (i j : Nat)
    (h : (freshSlot i).tap_dev_name = (freshSlot j).tap_dev_name) : i = j := by
  have hi : (freshSlot i).tap_dev_name = "tap" ++ Nat.repr i := rfl
  have hj : (freshSlot j).tap_dev_name = "tap" ++ Nat.repr j := rfl
  rw [hi, hj] at h
  exact append_repr_inj "tap" i j h

/-- C5 (amended): for every N up to the 16384-slot wrap threshold, the N
slots issued by N consecutive next_slot calls on a fresh allocator, with no
intervening reclaim, have pairwise-distinct guest IPv4 addresses and
pairwise-distinct TAP device names. -/
theorem c5_slot_uniqueness_amended (n : Nat) (hn : n ≤ 16384) :
    ((allocateSeq n NetworkManager.new).1).Pairwise
      (fun s t => s.ipv4_addr ≠ t.ipv4_addr ∧ s.tap_dev_name ≠ t.tap_dev_name) := by
  have hfresh := allocateSeq_fresh n 0 (by omega)
  rw [show NetworkManager.new = { recovered_slots := [], next_id := 0 } from rfl, hfresh,
    List.pairwise_map]
  have hp : (List.range n).Pairwise (· < ·) := List.pairwise_lt_range n
  refine hp.imp_of_mem ?_
  intro a b ha hb hab
  have hba : a < n := List.mem_range.mp ha
  have hbb : b < n := List.mem_range.mp hb
  constructor
  · intro hcontra
    have := freshSlot_ipv4_inj (0 + a) (0 + b) (by omega) (by omega) hcontra
    omega
  · intro hcontra
    have := freshSlot_tap_inj (0 + a) (0 + b) hcontra
    omega

/-- Witness for C5 at three consecutive allocations. -/
theorem c5_slot_uniqueness_amended_witness :
    (3 ≤ 16384) ∧
      ((allocateSeq 3 NetworkManager.new).1).Pairwise
        (fun s t => s.ipv4_addr ≠ t.ipv4_addr ∧ s.tap_dev_name ≠ t.tap_dev_name) :=
  ⟨by omega, c5_slot_uniqueness_amended 3 (by omega)⟩

/-- C5 (counterexample): the u16 computation of the slot addresses wraps,
so the claim does not hold for every N: among 16385 consecutive allocations
from a fresh allocator, the 1st and the 16385th issued slots carry the same
guest IPv4 address 172.16.0.2. -/
theorem c5_ipv4_collision_counterexample :
    (((allocateSeq 16385 NetworkManager.new).1)[0]?).map (fun s => s.ipv4_addr) =
        some ⟨172, 16, 0, 2⟩ ∧
      (((allocateSeq 16385 NetworkManager.new).1)[16384]?).map (fun s => s.ipv4_addr) =
        some ⟨172, 16, 0, 2⟩ := by
  have hfresh := allocateSeq_fresh 16385 0 (by omega)
  rw [show NetworkManager.new = { recovered_slots := [], next_id := 0 } from rfl, hfresh]
  constructor
  · rw [List.getElem?_map, List.getElem?_range (by omega : (0 : Nat) < 16385)]
    rfl
  · rw [List.getElem?_map, List.getElem?_range (by omega : (16384 : Nat) < 16385)]
    rfl

/-! ## In-guest layer extraction (src/instance/src/containers/registry.rs) -/

/-- The OCI layer media types the extraction path distinguishes (oci_spec
MediaType); every other media type is collapsed into the catch-all. -/
inductive MediaType where
  | ImageLayerGzip
  | ImageLayerZstd
  | ImageLayer
  | otherMedia (name : String)
  deriving DecidableEq, Repr

/-- Error kinds, enum RegistryErrors in registry.rs. -/
inductive RegistryErrors where
  | NetworkError
  | RegistryResponseError
  | NoCompatibleImageAvailable
  | UnsupportedRegistryImageFormat
  | UnableToParseImageIndex
  | UnableToParseImageManifest
  | UnableToParseImageConfiguration
  | UnableToConstructRuntimeConfig
  | AuthenticationError
  | IOErr
  | ExtractIOError
  deriving DecidableEq, Repr

/-- The stream decoders extract_layer can wrap around the blob before tar
unpacking.  Gzip and Zlib are the two flate2 readers, both DEFLATE-based;
Zstd denotes a decoder of the zstd frame format, which flate2 does not
provide, listed so the selected reader can be compared with the media-type
mapping the spec prescribes. -/
inductive LayerReader where
  | Gzip
  | Zlib
  | Identity
  | Zstd
  deriving DecidableEq, Repr

/-- The reader selection of extract_layer (registry.rs lines 122-146): the
gzip media type gets flate2 GzDecoder, the zstd media type gets flate2
ZlibDecoder, plain tar gets the blob unchanged, and any other media type
fails with IOErr. -/
def extract_layer_reader : MediaType → Except RegistryErrors LayerReader
  | .ImageLayerGzip => .ok .Gzip
  | .ImageLayerZstd => .ok .Zlib
  | .ImageLayer => .ok .Identity
  | .otherMedia _ => .error .IOErr

/-- Modelled from the spec: the media-type mapping of the registry-client
section, with the zstd media type streamed through a zstd decoder. -/
def spec_layer_reader : MediaType → Except RegistryErrors LayerReader
  | .ImageLayerGzip => .ok .Gzip
  | .ImageLayerZstd => .ok .Zstd
  | .ImageLayer => .ok .Identity
  | .otherMedia _ => .error .IOErr

/-- C4: at the zstd layer media type extract_layer wraps the blob in the
flate2 zlib decoder rather than a zstd decoder, diverging from the
prescribed media-type mapping, which the code follows on every other media
type; zlib cannot decode zstd frames, and the spec design notes flag this
very line as a likely bug, so the code, not the claim, is wrong. -/
theorem c4_zstd_layer_selects_zlib :
    extract_layer_reader MediaType.ImageLayerZstd = Except.ok LayerReader.Zlib ∧
      spec_layer_reader MediaType.ImageLayerZstd = Except.ok LayerReader.Zstd ∧
      extract_layer_reader MediaType.ImageLayerZstd ≠
        spec_layer_reader MediaType.ImageLayerZstd ∧
      extract_layer_reader MediaType.ImageLayerGzip = Except.ok LayerReader.Gzip ∧
      extract_layer_reader MediaType.ImageLayer = Except.ok LayerReader.Identity ∧
      ∀ name, extract_layer_reader (MediaType.otherMedia name) =
        Except.error RegistryErrors.IOErr :=
  ⟨rfl, rfl, fun hcontra => LayerReader.noConfusion (Except.ok.inj hcontra), rfl, rfl,
    fun _ => rfl⟩

/-! ## Authentication (src/proto/src/auth.rs) and the node manager RPC
surface (src/nodemanager/src/manager.rs) -/

/-- The registered JWT claims validate_authentication reads: audience,
expiration, not-before, each optional (jwt crate RegisteredClaims). -/
structure Claims where
  audience : Option String
  expiration : Option Nat
  not_before : Option Nat
  deriving DecidableEq, Repr

/-- Modelled from the spec: a bearer token as the external jwt crate
presents it.  HS256 verification returns the embedded claims exactly when
the token's signature verifies under the configured secret; the flag
records that outcome, the cryptography itself being outside this
repository. -/
structure Token where
  claims : Claims
  signature_valid : Bool
  deriving DecidableEq, Repr

/-- Modelled from the spec: token.verify_with_key(secret). -/
def verify_with_key (t : Token) : Option Claims :=
  if t.signature_valid then some t.claims else none

/-- The token the manager substitutes for absent or non-ASCII auth
metadata: the empty string, which never verifies. -/
def emptyToken : Token :=
  { claims := { audience := none, expiration := none, not_before := none },
    signature_valid := false }

/-- validate_authentication (auth.rs lines 9-30): verify the signature,
compare the audience claim with the expected audience, then check
expiration and not-before against the current unix time, which the model
takes as an argument where the Rust reads the system clock. -/
def validate_authentication (token : Token) (expected_audience : Option String)
    (unix_t_s : Nat) : Bool :=
  match verify_with_key token with
  | none => false
  | some claims =>
      if expected_audience ≠ claims.audience then false
      else
        decide (unix_t_s < claims.expiration.getD 0) &&
          decide (unix_t_s > claims.not_before.getD 0)

theorem validate_authentication_false_cases (t : Token) (aud : Option String) (now : Nat)
    (h : t.claims.audience ≠ aud ∨ verify_with_key t = none ∨
      ¬(now < t.claims.expiration.getD 0 ∧ now > t.claims.not_before.getD 0)) :
    validate_authentication t aud now = false := by
  cases hv : verify_with_key t with
  | none => simp [validate_authentication, hv]
  | some claims =>
      have hcl : claims = t.claims := by
        unfold verify_with_key at hv
        cases hsv : t.signature_valid with
        | false => simp [hsv] at hv
        | true =>
            simp [hsv] at hv
            exact hv.symm
      subst hcl
      rcases h with h | h | h
      · simp only [validate_authentication, hv]
        rw [if_pos (Ne.symm h)]
      · rw [h] at hv
        exact Option.noConfusion hv
      · simp only [validate_authentication, hv]
        by_cases haud : aud ≠ t.claims.audience
        · rw [if_pos haud]
        · rw [if_neg haud]
          by_cases hexp : now < t.claims.expiration.getD 0
          · have hnbf : ¬now > t.claims.not_before.getD 0 := fun hq => h ⟨hexp, hq⟩
            rw [decide_eq_false hnbf, Bool.and_false]
          · rw [decide_eq_false hexp, Bool.false_and]

/-- RPC status codes the manager produces (tonic Status). -/
inductive Status where
  | Unauthenticated
  | NotFound
  | InvalidArgument
  | Internal
  deriving DecidableEq, Repr

/-- Request metadata as validate_auth consumes it: the optional auth
entry. -/
structure MetadataMap where
  auth : Option Token
  deriving DecidableEq, Repr

/-- The slice of struct Machine (src/nodemanager/src/machine/machine.rs)
that deprovisioning observes: shutdown tears the VM down and surrenders the
owned network stack for reclamation. -/
structure Machine where
  network : NetworkStack
  deriving DecidableEq, Repr

/-- struct InnerNodeManager: the machine table (a HashMap keyed by id,
modelled as an association list with unique keys) and the allocator. -/
structure InnerNodeManager where
  machines : List (String × Machine)
  network : NetworkManager
  deriving DecidableEq, Repr

/-- InnerNodeManager::_deprovision (manager.rs lines 109-120): when the id
is present, remove it, shut the machine down and reclaim its stack; a
missing id only logs a warning, and both paths return Ok. -/
def InnerNodeManager.deprovisionInner (m : InnerNodeManager) (id : String) :
    InnerNodeManager × Except String Unit :=
  match m.machines.lookup id with
  | some machine =>
      ({ machines := m.machines.filter (fun e => !(e.1 == id)),
         network := m.network.reclaim machine.network }, Except.ok ())
  | none => (m, Except.ok ())

/-- struct NodeManager: the shared inner state and the optional HMAC
secret.  Only the presence of the secret is observable in the model, since
the Token model already carries the outcome of signature verification. -/
structure NodeManagerState where
  inner : InnerNodeManager
  authentication_secret : Option Unit
  deriving DecidableEq, Repr

/-- NodeManager::validate_auth (manager.rs lines 175-195): with no
configured secret every request passes without the metadata being read;
otherwise the auth entry, or the empty token in its place, must validate. -/
def validate_auth (nm : NodeManagerState) (metadata : MetadataMap)
    (expected_audience : Option String) (unix_t_s : Nat) : Except Status Unit :=
  match nm.authentication_secret with
  | none => Except.ok ()
  | some _ =>
      if validate_authentication (metadata.auth.getD emptyToken) expected_audience unix_t_s
      then Except.ok ()
      else Except.error Status.Unauthenticated

/-- NodeManager::deprovision (manager.rs lines 218-227): validate the token
with the instance id as expected audience, then run _deprovision, mapping
its error, which the body never produces, to Internal.  Returns the
resulting state and the RPC outcome. -/
def NodeManager.deprovision (nm : NodeManagerState) (metadata : MetadataMap) (id : String)
    (unix_t_s : Nat) : NodeManagerState × Except Status Unit :=
  match validate_auth nm metadata (some id) unix_t_s with
  | Except.error s => (nm, Except.error s)
  | Except.ok () =>
      let p := nm.inner.deprovisionInner id
      match p.2 with
      | Except.ok () => ({ nm with inner := p.1 }, Except.ok ())
      | Except.error _ => ({ nm with inner := p.1 }, Except.error Status.Internal)

/-- C2 (amended): an authorized Deprovision call whose id is not in the
machine table returns success, not NotFound, and leaves the machine table
and the network allocator unchanged. -/
theorem c2_deprovision_missing_id_amended (nm : NodeManagerState) (metadata : MetadataMap)
    (id : String) (unix_t_s : Nat)
    (hmiss : nm.inner.machines.lookup id = none)
    (hauth : validate_auth nm metadata (some id) unix_t_s = Except.ok ()) :
    NodeManager.deprovision nm metadata id unix_t_s = (nm, Except.ok ()) := by
  unfold NodeManager.deprovision
  rw [hauth]
  simp [InnerNodeManager.deprovisionInner, hmiss]

/-- Witness for C2 on an empty table with no configured secret. -/
theorem c2_deprovision_missing_id_amended_witness :
    (InnerNodeManager.mk [] NetworkManager.new).machines.lookup "missing" = none ∧
      validate_auth ⟨InnerNodeManager.mk [] NetworkManager.new, none⟩ ⟨none⟩
        (some "missing") 0 = Except.ok () ∧
      NodeManager.deprovision ⟨InnerNodeManager.mk [] NetworkManager.new, none⟩ ⟨none⟩
        "missing" 0 = (⟨InnerNodeManager.mk [] NetworkManager.new, none⟩, Except.ok ()) :=
  ⟨rfl, rfl,
    c2_deprovision_missing_id_amended ⟨InnerNodeManager.mk [] NetworkManager.new, none⟩
      ⟨none⟩ "missing" 0 rfl rfl⟩

/-- C2 (counterexample): with an id absent from the table, Deprovision
returns Ok with the empty response, not the NotFound error the claim
states; the state is indeed unchanged. -/
theorem c2_missing_id_counterexample :
    (NodeManager.deprovision ⟨InnerNodeManager.mk [] NetworkManager.new, none⟩ ⟨none⟩
        "missing" 0).2 = Except.ok () ∧
      (NodeManager.deprovision ⟨InnerNodeManager.mk [] NetworkManager.new, none⟩ ⟨none⟩
        "missing" 0).2 ≠ Except.error Status.NotFound ∧
      (NodeManager.deprovision ⟨InnerNodeManager.mk [] NetworkManager.new, none⟩ ⟨none⟩
        "missing" 0).1 = ⟨InnerNodeManager.mk [] NetworkManager.new, none⟩ := by
  refine ⟨rfl, ?_, rfl⟩
  intro hcontra
  simp [NodeManager.deprovision, validate_auth, InnerNodeManager.deprovisionInner] at hcontra

/-- C8: with an HMAC secret configured, a Deprovision call whose bearer
token has an audience different from the target instance id, or fails
signature or expiry or not-before validation, returns Unauthenticated and
leaves the whole manager state, machine table and allocator included,
untouched. -/
theorem c8_deprovision_auth_reject (nm : NodeManagerState) (metadata : MetadataMap)
    (id : String) (unix_t_s : Nat)
    (hsecret : nm.authentication_secret = some ())
    (hbad : (metadata.auth.getD emptyToken).claims.audience ≠ some id ∨
      verify_with_key (metadata.auth.getD emptyToken) = none ∨
      ¬(unix_t_s < (metadata.auth.getD emptyToken).claims.expiration.getD 0 ∧
        unix_t_s > (metadata.auth.getD emptyToken).claims.not_before.getD 0)) :
    NodeManager.deprovision nm metadata id unix_t_s =
      (nm, Except.error Status.Unauthenticated) := by
  have hval := validate_authentication_false_cases (metadata.auth.getD emptyToken)
    (some id) unix_t_s hbad
  unfold NodeManager.deprovision validate_auth
  rw [hsecret, hval]
  rfl

/-- Witness for C8: a signed, unexpired token whose audience names a
different instance is rejected without touching a nonempty table. -/
theorem c8_deprovision_auth_reject_witness :
    (NodeManagerState.mk
        (InnerNodeManager.mk
          [("i1", Machine.mk (NetworkStack.new ⟨⟨172, 16, 0, 2⟩, ⟨172, 16, 0, 1⟩, "tap0"⟩))]
          NetworkManager.new)
        (some ())).authentication_secret = some () ∧
      NodeManager.deprovision
          (NodeManagerState.mk
            (InnerNodeManager.mk
              [("i1", Machine.mk (NetworkStack.new ⟨⟨172, 16, 0, 2⟩, ⟨172, 16, 0, 1⟩, "tap0"⟩))]
              NetworkManager.new)
            (some ()))
          ⟨some (Token.mk ⟨some "other", some 100, some 0⟩ true)⟩ "i1" 10 =
        ((NodeManagerState.mk
            (InnerNodeManager.mk
              [("i1", Machine.mk (NetworkStack.new ⟨⟨172, 16, 0, 2⟩, ⟨172, 16, 0, 1⟩, "tap0"⟩))]
              NetworkManager.new)
            (some ())),
          Except.error Status.Unauthenticated) :=
  ⟨rfl,
    c8_deprovision_auth_reject
      (NodeManagerState.mk
        (InnerNodeManager.mk
          [("i1", Machine.mk (NetworkStack.new ⟨⟨172, 16, 0, 2⟩, ⟨172, 16, 0, 1⟩, "tap0"⟩))]
          NetworkManager.new)
        (some ()))
      ⟨some (Token.mk ⟨some "other", some 100, some 0⟩ true)⟩ "i1" 10 rfl
      (Or.inl (by decide))⟩

/-- The handler shape every RPC method of the service impl follows:
validate_auth on the request metadata, then a body that reads only the
request message and the inner state; into_inner discards the metadata
before the body runs. -/
def rpc_handle {α : Type} (nm : NodeManagerState) (metadata : MetadataMap)
    (expected_audience : Option String) (unix_t_s : Nat)
    (body : Unit → α) (onAuthError : Status → α) : α :=
  match validate_auth nm metadata expected_audience unix_t_s with
  | Except.error s => onAuthError s
  | Except.ok () => body ()

/-- C10: with no authentication secret configured, validate_auth accepts
every request, and any two invocations of an RPC handler that differ only
in their auth metadata, or in the clock, produce identical outcomes: the
token is never examined.  The third conjunct instantiates this for the
fully modelled Deprovision operation. -/
theorem c10_no_secret_auth_noninterference :
    (∀ (inner : InnerNodeManager) (metadata : MetadataMap) (aud : Option String) (now : Nat),
        validate_auth ⟨inner, none⟩ metadata aud now = Except.ok ()) ∧
      (∀ (α : Type) (inner : InnerNodeManager) (m1 m2 : MetadataMap) (aud : Option String)
          (t1 t2 : Nat) (body : Unit → α) (onAuthError : Status → α),
        rpc_handle ⟨inner, none⟩ m1 aud t1 body onAuthError =
          rpc_handle ⟨inner, none⟩ m2 aud t2 body onAuthError) ∧
      (∀ (inner : InnerNodeManager) (m1 m2 : MetadataMap) (id : String) (t1 t2 : Nat),
        NodeManager.deprovision ⟨inner, none⟩ m1 id t1 =
          NodeManager.deprovision ⟨inner, none⟩ m2 id t2) :=
  ⟨fun _ _ _ _ => rfl, fun _ _ _ _ _ _ _ _ _ => rfl, fun _ _ _ _ _ _ => rfl⟩

/-! ## Frame length validation on the control channel
(read_from_stream in src/nodemanager/src/machine/vsock.rs and read_packet
in src/instance/src/host.rs) -/

/-- Modelled from the spec: vmproto::MAX_PACKET_SIZE, whose defining module
is not among the sources; the spec prescribes a fixed constant in the low
megabytes, taken here as two mebibytes. -/
def MAX_PACKET_SIZE : Nat := 2 * 1024 * 1024

/-- const BUFFER_SIZE in src/instance/src/host.rs. -/
def BUFFER_SIZE : Nat := 2 * 1024

/-- The length guard of the host reader (vsock.rs line 227): false exactly
when the guard makes read_from_stream return Err. -/
def read_from_stream_len_ok (len : Nat) : Bool :=
  !(decide (len = 0) || decide (len > MAX_PACKET_SIZE))

/-- The length guard of the guest reader (host.rs line 135): false exactly
when read_packet returns the deserialization error at the guard. -/
def read_packet_len_ok (len : Nat) : Bool :=
  !decide (len > BUFFER_SIZE)

/-- Four big-endian bytes of a u32 length prefix. -/
def encU32BE (n : Nat) : List Nat :=
  [n / 16777216 % 256, n / 65536 % 256, n / 256 % 256, n % 256]

/-- Read back a u32 length prefix from four big-endian bytes. -/
def decU32BE : List Nat → Option (Nat × List Nat)
  | b0 :: b1 :: b2 :: b3 :: rest => some (((b0 * 256 + b1) * 256 + b2) * 256 + b3, rest)
  | _ => none

/-- read_from_stream (vsock.rs lines 211-253) over a byte stream: read the
big-endian length, apply the guard, read that many payload bytes and decode
them; every failure collapses to Err as in the source. -/
def read_from_stream (stream : List Nat) : Except Unit (GuestPacket × List Nat) :=
  match decU32BE stream with
  | none => Except.error ()
  | some (len, r) =>
      if len = 0 ∨ len > MAX_PACKET_SIZE then Except.error ()
      else if r.length < len then Except.error ()
      else
        match deserialize_guest_packet (r.take len) with
        | some p => Except.ok (p, r.drop len)
        | none => Except.error ()

/-- Error kinds of the guest communication layer, enum CommErrors in
src/instance/src/host.rs. -/
inductive CommErrors where
  | UnableToConnect
  | IoError
  | HostDeserializationError
  deriving DecidableEq, Repr

/-- read_packet (host.rs lines 129-145): read the big-endian length, reject
only lengths above BUFFER_SIZE, then read the payload and decode it.  There
is no zero-length check. -/
def read_packet (stream : List Nat) : Except CommErrors (HostPacket × List Nat) :=
  match decU32BE stream with
  | none => Except.error CommErrors.IoError
  | some (len, r) =>
      if len > BUFFER_SIZE then Except.error CommErrors.HostDeserializationError
      else if r.length < len then Except.error CommErrors.IoError
      else
        match deserialize_host_packet (r.take len) with
        | some p => Except.ok (p, r.drop len)
        | none => Except.error CommErrors.HostDeserializationError

/-- C6 (amended): the host reader's guard rejects exactly zero lengths and
lengths above MAX_PACKET_SIZE; the guest reader's guard rejects exactly
lengths above its two-kibibyte BUFFER_SIZE, a different constant, and in
particular passes zero-length frames through to the decoder, where the
empty payload fails to decode rather than being rejected by any length
check. -/
theorem c6_frame_length_guards_amended (len : Nat) :
    (read_from_stream_len_ok len = false ↔ len = 0 ∨ len > MAX_PACKET_SIZE) ∧
      (read_packet_len_ok len = false ↔ len > BUFFER_SIZE) ∧
      (∀ stream, read_from_stream (encU32BE 0 ++ stream) = Except.error ()) ∧
      (∀ stream, read_packet (encU32BE 0 ++ stream) =
        Except.error CommErrors.HostDeserializationError) := by
  refine ⟨?_, ?_, ?_, ?_⟩
  · simp only [read_from_stream_len_ok]
    constructor
    · intro hf
      by_cases h0 : len = 0
      · exact Or.inl h0
      · refine Or.inr ?_
        simp [h0] at hf
        exact hf
    · intro hcase
      rcases hcase with h0 | hmax
      · simp [h0]
      · simp [hmax]
  · simp [read_packet_len_ok]
  · intro stream
    simp [read_from_stream, encU32BE, decU32BE]
  · intro stream
    simp [read_packet, encU32BE, decU32BE, BUFFER_SIZE, deserialize_host_packet]

/-- C6 (counterexample): the two readers do not enforce a shared maximum,
and the guest guard accepts the zero length the claim says both sides
reject: zero passes the guest guard while the host guard rejects it, and
a 4096-byte length passes the host guard while the guest guard rejects
it. -/
theorem c6_length_guard_counterexample :
    read_packet_len_ok 0 = true ∧ read_from_stream_len_ok 0 = false ∧
      read_from_stream_len_ok 4096 = true ∧ read_packet_len_ok 4096 = false := by
  decide

end ContainerInfra
